import Mathlib

/-!
Shallow embedding of the volunteer-events mobile client's core data/state
layer, translated from the TypeScript source:
  * `EventDetails.tsx`   — participation status and the volunteer signup
    transition (`isVolunteered`, `isFull`, the status render, `handleVolunteer`);
  * `EventsMap`          — `fetchEvents`: network-first event listing with
    cache fallback;
  * `AddEventForm`       — draft validation (`isVolunteersValid`,
    `isDescriptionValid`, `isDateValid`, `allValid`), the image content
    encoding step of `handleImagePicked`, and the `onSave` request body.

Modelling conventions:
  * JavaScript timestamps (`Date.getTime()`, `Date.now()`) are `Int`
    milliseconds; the ISO-8601 `dateTime` string of an event is kept as a
    `String`, and `new Date(s).getTime()` is an explicit parameter
    `getTime : String → Int` where needed.
  * `null`/`undefined` become `Option`; JavaScript string truthiness
    (`!!s`) is `s ≠ ""` on the `some` case.
  * JavaScript string primitives (`trim`, `split(",")`, `includes(",")`) are
    modelled on the underlying character list, so that every definition
    evaluates inside the kernel.
  * Asynchronous I/O outcomes (network fetch, PATCH) are explicit input
    parameters of the state-transition functions; storage reads/writes are
    modelled as a field of an explicit state record, with the JSON
    stringify/parse round-trip abstracted to the identity.
-/

namespace VolunteerApp

/-- `position: { latitude, longitude }` from `Event.ts`. The numeric values
never influence the verified behaviour, so coordinates are `Int`. -/
structure Position where
  latitude : Int
  longitude : Int
deriving DecidableEq

/-- The `Event` interface of `src/types/Event.ts` / `EventDetails.tsx`.
`volunteersNeeded` is a JS number used only in integer comparisons, kept as
`Int`; `imageUrl` is optional. -/
structure Event where
  id : String
  name : String
  description : String
  organizerId : String
  dateTime : String
  imageUrl : Option String
  position : Position
  volunteersNeeded : Int
  volunteersIds : List String
deriving DecidableEq

/-- `isVolunteered` from `EventDetails.tsx`:
`if (!event || !userId) return false; return event.volunteersIds?.includes(userId)`.
`!userId` is true for both `null` and the empty string. -/
def isVolunteered (event : Option Event) (userId : Option String) : Bool :=
  match event, userId with
  | some e, some u => if u = "" then false else e.volunteersIds.contains u
  | _, _ => false

/-- `isFull` from `EventDetails.tsx`:
`(event.volunteersIds?.length ?? 0) >= (event.volunteersNeeded ?? 0)`,
`false` when no event is loaded. -/
def isFull (event : Option Event) : Bool :=
  match event with
  | none => false
  | some e => (e.volunteersIds.length : Int) ≥ e.volunteersNeeded

/-- The three mutually exclusive status boxes rendered by `EventDetails`. -/
inductive DisplayState where
  | volunteered
  | full
  | openCount (count : Nat) (needed : Int)
deriving DecidableEq

/-- The status render of `EventDetails` (the `isVolunteered ? … : isFull ? … : …`
conditional): Volunteered wins over Full wins over the open "`k` of `n` needed"
box. Only reached once an event is loaded. -/
def displayState (e : Event) (userId : Option String) : DisplayState :=
  if isVolunteered (some e) userId then .volunteered
  else if isFull (some e) then .full
  else .openCount e.volunteersIds.length e.volunteersNeeded

/-- Outcome of the `fetch(..., { method: "PATCH", ... })` call inside
`handleVolunteer`: either the promise rejects (`thrown`) or it resolves with
some HTTP status code (`completed`) — the code never inspects the status. -/
inductive PatchOutcome where
  | thrown
  | completed (status : Nat)
deriving DecidableEq

/-- The observable signal `handleVolunteer` leaves behind: which alert (if any)
is shown, or that it returned silently. -/
inductive VolunteerSignal where
  | noEvent
  | loginRequired
  | noOp
  | success
  | signupFailed
deriving DecidableEq

/-- `handleVolunteer` from `EventDetails.tsx`, as a function of the loaded
event, the stored user id, and the PATCH outcome. Returns the resulting
in-memory event (`setEvent` target) and the signal:

* `if (!event) return` — nothing loaded, silent return;
* `if (!userId) { Alert "Login required" ... }` — unauthenticated;
* `if (isVolunteered || isFull) return` — silent no-op;
* otherwise builds `updated = { volunteersIds: [...event.volunteersIds, userId] }`,
  awaits the PATCH; a rejection lands in `catch` (error alert, no `setEvent`),
  and any resolution — the response status is never checked — proceeds to
  `setEvent({ ...event, ...updated })` and the success alert. -/
def handleVolunteer (event : Option Event) (userId : Option String)
    (outcome : PatchOutcome) : Option Event × VolunteerSignal :=
  match event with
  | none => (none, .noEvent)
  | some e =>
    match userId with
    | none => (some e, .loginRequired)
    | some u =>
      if u = "" then (some e, .loginRequired)
      else if isVolunteered (some e) (some u) || isFull (some e) then (some e, .noOp)
      else
        match outcome with
        | .thrown => (some e, .signupFailed)
        | .completed _ =>
          (some { e with volunteersIds := e.volunteersIds ++ [u] }, .success)

/-! ### EventsMap: `fetchEvents` -/

/-- Outcome of the connected branch's `fetch(API_BASE + "/events")` in
`EventsMap.fetchEvents`: `notOk` — the response arrived with `!response.ok`
(the code then throws); `badJson` — `response.json()` (or the transport)
threw; `ok data` — the parsed event array. -/
inductive NetResult where
  | notOk
  | badJson
  | ok (data : List Event)
deriving DecidableEq

/-- The state `fetchEvents` reads and writes: the `events` React state
(`setEvents`) and the `EVENTS_CACHE_KEY` entry of AsyncStorage. The cache
holds `JSON.stringify`-ed event lists; the stringify/parse round-trip is
abstracted to the identity, so the cache is an `Option (List Event)`. -/
structure FetchState where
  events : List Event
  cache : Option (List Event)
deriving DecidableEq

/-- The alert `fetchEvents` may show: the "Offline / No cached events
available." alert of the disconnected branch, or the "Error / Unable to load
events." alert of the `catch` branch. -/
inductive FetchAlert where
  | noAlert
  | offlineNoCache
  | errorNoCache
deriving DecidableEq

/-- `fetchEvents` from `EventsMap`, over the probe result (`NetInfo.fetch`),
the network outcome, the wall clock `now` (`Date.now()`), and
`getTime s = new Date(s).getTime()`:

* connected and `response.ok` with parsed `data`: filters to
  `new Date(e.dateTime).getTime() >= Date.now()`, calls `setEvents` on the
  filtered list and fully overwrites the cache key with its JSON;
* connected but the fetch throws (`!response.ok` raises `"Failed to fetch"`,
  or `json()` rejects): the `catch` block reads the cache — `setEvents` of the
  parsed snapshot when present, else the error alert;
* disconnected: reads the cache — `setEvents` of the snapshot when present,
  else the offline alert. -/
def fetchEvents (getTime : String → Int) (now : Int) (connected : Bool)
    (net : NetResult) (st : FetchState) : FetchState × FetchAlert :=
  if connected then
    match net with
    | .ok data =>
      let futureEvents := data.filter (fun e => decide (getTime e.dateTime ≥ now))
      ({ events := futureEvents, cache := some futureEvents }, .noAlert)
    | _ =>
      match st.cache with
      | some l => ({ st with events := l }, .noAlert)
      | none => (st, .errorNoCache)
  else
    match st.cache with
    | some l => ({ st with events := l }, .noAlert)
    | none => (st, .offlineNoCache)

/-! ### AddEventForm: validation, image content encoding, save -/

/-- An IEEE-754 binary64 value as JavaScript numbers hold them, by its exact
mathematical content: `finite neg sig exp` is `(-1)^neg · sig · 2^exp`
(a representable double, not necessarily in canonical form), and `inf` the
two infinities. NaN is represented as `none` at the `Option` layer. -/
inductive F64 where
  | finite (neg : Bool) (sig : ℕ) (exp : ℤ)
  | inf (neg : Bool)
deriving DecidableEq

/-- JavaScript `num > 0` on a double (NaN is handled at the `Option` layer;
`-0` has `sig = 0` and compares like `0`). -/
def F64.isPos : F64 → Bool
  | .finite neg sig _ => !neg && decide (0 < sig)
  | .inf neg => !neg

/-- JavaScript `Number.isInteger` on a double: finite with an integer value
(`sig · 2^exp` is an integer iff `exp ≥ 0` or `2^(-exp)` divides `sig`). -/
def F64.isInt : F64 → Bool
  | .finite _ sig e => if 0 ≤ e then true else decide (sig % 2 ^ (-e).toNat = 0)
  | .inf _ => false

/-- The exact rational value of a double (infinities mapped to `0`; used only
in theorem statements, never evaluated by the kernel). -/
def F64.val : F64 → ℚ
  | .finite neg sig e => (if neg then -1 else 1) * (sig : ℚ) * (2 : ℚ) ^ e
  | .inf _ => 0

/-- Value of the digit list `l` read in base 10 (helper for `jsNumber`). -/
def digitsVal (l : List Char) : Nat :=
  l.foldl (fun a c => a * 10 + (c.toNat - Char.toNat '0')) 0

/-- The `StrWhiteSpace` characters of the ECMAScript `StringNumericLiteral`
grammar: WhiteSpace (TAB, VT, FF, SP, NBSP, ZWNBSP and the Unicode Zs
spaces) and LineTerminator (LF, CR, LS, PS). -/
def isJSWhite (c : Char) : Bool :=
  c = ' ' || c = '\t' || c = '\n' || c = '\r'
    || c.toNat = 0xB || c.toNat = 0xC || c.toNat = 0xA0 || c.toNat = 0xFEFF
    || c.toNat = 0x1680 || (0x2000 ≤ c.toNat && c.toNat ≤ 0x200A)
    || c.toNat = 0x2028 || c.toNat = 0x2029 || c.toNat = 0x202F
    || c.toNat = 0x205F || c.toNat = 0x3000

/-- Surrounding-whitespace trimming on the character list (the
`StrWhiteSpace?` ... `StrWhiteSpace?` wrapping of `Number(string)`). -/
def trimChars (cs : List Char) : List Char :=
  ((cs.dropWhile isJSWhite).reverse.dropWhile isJSWhite).reverse

/-- Hex-digit test for the `0x` literals accepted by `Number(string)`. -/
def isHexDigitCh (c : Char) : Bool :=
  c.isDigit || ('a' ≤ c && c ≤ 'f') || ('A' ≤ c && c ≤ 'F')

/-- Value of one digit in bases up to 16. -/
def hexVal (c : Char) : ℕ :=
  if c.isDigit then c.toNat - Char.toNat '0'
  else if 'a' ≤ c && c ≤ 'f' then c.toNat - Char.toNat 'a' + 10
  else if 'A' ≤ c && c ≤ 'F' then c.toNat - Char.toNat 'A' + 10
  else 0

/-- Value of the digit list `l` read in base `b` (hex/octal/binary literals). -/
def baseVal (b : ℕ) (l : List Char) : ℕ :=
  l.foldl (fun a c => a * b + hexVal c) 0

/-- `⌊log2 n⌋` by structural recursion on a fuel bound (Lean core's
`Nat.log2` is defined by well-founded recursion, which the kernel cannot
evaluate). -/
def log2Fuel : ℕ → ℕ → ℕ
  | 0, _ => 0
  | fuel + 1, n => if 2 ≤ n then log2Fuel fuel (n / 2) + 1 else 0

/-- `⌊log2 n⌋` for `n ≥ 1` (`n` itself bounds the recursion depth). -/
def natLog2 (n : ℕ) : ℕ :=
  log2Fuel n n

/-- Decides `2^e · D ≤ N` for an integer exponent `e`. -/
def pow2MulLe (e : ℤ) (D N : ℕ) : Bool :=
  if 0 ≤ e then decide (2 ^ e.toNat * D ≤ N)
  else decide (D ≤ 2 ^ (-e).toNat * N)

/-- `⌊log2 (N/D)⌋` for `N, D ≥ 1`: `natLog2` gives 2-power brackets of `N`
and `D`, pinning the answer to two candidates, decided exactly. -/
def floorLog2Frac (N D : ℕ) : ℤ :=
  let e0 : ℤ := (natLog2 N : ℤ) - (natLog2 D : ℤ) - 1
  if pow2MulLe (e0 + 1) D N then e0 + 1 else e0

/-- Rounds `N / D` to the nearest integer, ties to even (the IEEE-754
default rounding used by `Number`). -/
def rndNearTiesEven (N D : ℕ) : ℕ :=
  let q := N / D
  let r := N % D
  if 2 * r < D then q
  else if D < 2 * r then q + 1
  else if q % 2 = 0 then q else q + 1

/-- Rounds the positive rational `N / D` (`N, D ≥ 1`) to the nearest
binary64 value: with `e = ⌊log2 (N/D)⌋`, normal numbers use the 53-bit
quantum `2^(e-52)`, subnormals (`e < -1022`) the fixed quantum `2^-1074`,
and a result of magnitude `≥ 2^1024` overflows to infinity. -/
def roundPosF (neg : Bool) (N D : ℕ) : F64 :=
  let e := floorLog2Frac N D
  if 1024 ≤ e then .inf neg
  else
    let qe : ℤ := if e - 52 < -1074 then -1074 else e - 52
    let sig :=
      if 0 ≤ qe then rndNearTiesEven N (D * 2 ^ qe.toNat)
      else rndNearTiesEven (N * 2 ^ (-qe).toNat) D
    if 0 ≤ qe && decide (2 ^ 1024 ≤ sig * 2 ^ qe.toNat) then .inf neg
    else .finite neg sig qe

/-- The double denoted by the exact literal value `(-1)^neg · m · 10^p`. -/
def mkNumber (neg : Bool) (m : ℕ) (p : ℤ) : F64 :=
  if m = 0 then .finite neg 0 0
  else if 0 ≤ p then roundPosF neg (m * 10 ^ p.toNat) 1
  else roundPosF neg m (10 ^ (-p).toNat)

/-- The unsigned decimal mantissa of `StrDecimalLiteral`
(`DecimalDigits . DecimalDigits? ExponentPart?` | `. DecimalDigits
ExponentPart?` | `DecimalDigits ExponentPart?`): returns `(m, p)` with exact
literal value `m · 10^p`, or `none` when the characters are not a decimal
literal (NaN). -/
def parseDecMant (cs : List Char) : Option (ℕ × ℤ) :=
  let mant := cs.takeWhile (fun c => c ≠ 'e' && c ≠ 'E')
  let erest := cs.dropWhile (fun c => c ≠ 'e' && c ≠ 'E')
  let expOpt : Option ℤ :=
    match erest with
    | [] => some 0
    | _ :: es =>
      let se : ℤ × List Char :=
        match es with
        | '+' :: r => (1, r)
        | '-' :: r => (-1, r)
        | r => (1, r)
      if se.2 ≠ [] && se.2.all Char.isDigit then
        some (se.1 * (digitsVal se.2 : ℤ))
      else none
  match expOpt with
  | none => none
  | some x =>
    let intPart := mant.takeWhile (fun c => c ≠ '.')
    let rest := mant.dropWhile (fun c => c ≠ '.')
    match rest with
    | [] =>
      if intPart ≠ [] && intPart.all Char.isDigit then
        some (digitsVal intPart, x)
      else none
    | '.' :: frac =>
      if (intPart ≠ [] || frac ≠ []) && intPart.all Char.isDigit
          && frac.all Char.isDigit then
        some (digitsVal intPart * 10 ^ frac.length + digitsVal frac,
              x - (frac.length : ℤ))
      else none
    | _ => none

/-- A signed `StrDecimalLiteral`: optional sign, then `Infinity` or a
decimal mantissa, rounded to binary64. -/
def decSigned (cs : List Char) : Option F64 :=
  let sc : Bool × List Char :=
    match cs with
    | '-' :: rest => (true, rest)
    | '+' :: rest => (false, rest)
    | r => (false, r)
  if sc.2 = "Infinity".toList then some (.inf sc.1)
  else
    match parseDecMant sc.2 with
    | none => none
    | some mp => some (mkNumber sc.1 mp.1 mp.2)

/-- JavaScript `Number(s)` for string `s`, per the `StringNumericLiteral`
grammar: surrounding whitespace is trimmed, the empty/whitespace-only string
is `0`, `0x`/`0o`/`0b` introduce unsigned non-decimal integer literals, and
everything else is a signed decimal literal or `Infinity`; the exact literal
value is rounded to the nearest binary64 (`none` is NaN). -/
def jsNumber (s : String) : Option F64 :=
  let cs := trimChars s.toList
  if cs.isEmpty then some (.finite false 0 0) else
  match cs with
  | '0' :: c :: rest =>
    if c = 'x' || c = 'X' then
      if rest ≠ [] && rest.all isHexDigitCh then
        some (mkNumber false (baseVal 16 rest) 0)
      else none
    else if c = 'o' || c = 'O' then
      if rest ≠ [] && rest.all (fun d => '0' ≤ d && d ≤ '7') then
        some (mkNumber false (baseVal 8 rest) 0)
      else none
    else if c = 'b' || c = 'B' then
      if rest ≠ [] && rest.all (fun d => d = '0' || d = '1') then
        some (mkNumber false (baseVal 2 rest) 0)
      else none
    else decSigned cs
  | _ => decSigned cs

/-- `isVolunteersValid` from `AddEventForm`:
`const num = Number(volNeeded); !isNaN(num) && num > 0 && Number.isInteger(num)`.
`num` is the binary64 `Number` gives for the string; `none` is NaN. -/
def isVolunteersValid (volNeeded : String) : Bool :=
  match jsNumber volNeeded with
  | none => false
  | some v => v.isPos && v.isInt

/-- The form state of `AddEventForm` that validation and `onSave` read:
`date` is the picked `Date` as epoch milliseconds (`none` until picked),
`imageUrl` is `null` until an upload succeeded, `position` comes from
`route.params || {}` and may be absent. -/
structure DraftState where
  name : String
  about : String
  volNeeded : String
  date : Option Int
  imageUrl : Option String
  position : Option Position
deriving DecidableEq

/-- `isDescriptionValid` from `AddEventForm`: `about.length <= 300`. -/
def isDescriptionValid (s : DraftState) : Bool :=
  s.about.length ≤ 300

/-- `isDateValid` from `AddEventForm`: `date && date.getTime() >= Date.now()`
(a `null` date is falsy). -/
def isDateValid (s : DraftState) (now : Int) : Bool :=
  match s.date with
  | none => false
  | some t => t ≥ now

/-- `allValid` from `AddEventForm`:
`!!name && isDescriptionValid && isVolunteersValid && isDateValid && !!imageUrl && !!date`.
String truthiness is `≠ ""`. Note the source conjunction has no `position`
conjunct. -/
def allValid (s : DraftState) (now : Int) : Bool :=
  (s.name ≠ "" : Bool) && isDescriptionValid s && isVolunteersValid s.volNeeded
    && isDateValid s now
    && (match s.imageUrl with | none => false | some u => u ≠ "")
    && s.date.isSome

/-- The JSON body `onSave` POSTs to `API_BASE + "/events"`. `dateTime` keeps
the picked instant (`date.toISOString()` is the ISO encoding of that epoch
value); `volunteersNeeded` is the double `Number(volNeeded)` (`none` = NaN). -/
structure CreateEventBody where
  name : String
  description : String
  organizerId : String
  dateTime : Int
  imageUrl : Option String
  position : Option Position
  volunteersNeeded : Option F64
  volunteersIds : List String
deriving DecidableEq

/-- `onSave` from `AddEventForm`, up to the request it issues:
`if (!allValid || !date) { Alert "Validation" ...; return; }` yields `none`
(no request); otherwise the POSTed body, with `organizerId: "ImAdmin"` and
`volunteersIds: []` hard-coded. -/
def onSave (s : DraftState) (now : Int) : Option CreateEventBody :=
  if allValid s now then
    match s.date with
    | none => none
    | some t =>
      some { name := s.name
             description := s.about
             organizerId := "ImAdmin"
             dateTime := t
             imageUrl := s.imageUrl
             position := s.position
             volunteersNeeded := jsNumber s.volNeeded
             volunteersIds := [] }
  else none

/-- JavaScript `String.prototype.split(",")` on the character list: splits at
every comma, keeping empty segments, never returning an empty list. -/
def splitOnComma : List Char → List (List Char)
  | [] => [[]]
  | c :: rest =>
    let r := splitOnComma rest
    if c = ',' then [] :: r
    else
      match r with
      | [] => [[c]]
      | h :: t => (c :: h) :: t

/-- JavaScript `s.split(",").pop()`: the segment after the last comma
(`split` always returns a non-empty array). -/
def splitPop (s : String) : String :=
  String.mk ((splitOnComma s.toList).getLastD [])

/-- The content-encoding step of `handleImagePicked` in `AddEventForm`:

```
let base64 = asset.base64;
if (base64 && base64.includes(",")) base64 = base64.split(",").pop();
if (!base64) base64 = await FileSystem.readAsStringAsync(asset.uri, { encoding: "base64" });
```

`attached` is `asset.base64` (`none` = `undefined`); `fileRead` is the result
of a successful storage read (a throwing read aborts the surrounding `try`
and is outside this step). `includes(",")` is comma membership in the
character list. Returns the payload handed to `uploadImage`. -/
def encodeAssetContent (attached : Option String) (fileRead : String) : String :=
  let b1 : Option String :=
    match attached with
    | some s => if s ≠ "" && s.toList.contains ',' then some (splitPop s) else some s
    | none => none
  match b1 with
  | some s => if s = "" then fileRead else s
  | none => fileRead

/-- Joining segments back with commas (helper for `stripThroughFirstComma`). -/
def joinCommas : List (List Char) → List Char
  | [] => []
  | [x] => x
  | x :: xs => x ++ ',' :: joinCommas xs

/-- Modelled from the spec's words, for comparison with `encodeAssetContent`:
"stripping a leading data-URI scheme prefix up to and including the FIRST
comma, if one is present". -/
def stripThroughFirstComma (s : String) : String :=
  match splitOnComma s.toList with
  | [] => s
  | [_] => s
  | _ :: rest => String.mk (joinCommas rest)

/-! ### Concrete instances used by counterexamples and witnesses -/

/-- A concrete event: needs two volunteers, currently has one ("u1"). -/
def sampleEvent : Event :=
  { id := "e1"
    name := "Cleanup"
    description := "Park cleanup"
    organizerId := "o1"
    dateTime := "2030-01-01T00:00:00.000Z"
    imageUrl := none
    position := { latitude := 10, longitude := 20 }
    volunteersNeeded := 2
    volunteersIds := ["u1"] }

/-- A concrete full event: needs one volunteer and already has one. -/
def sampleFullEvent : Event :=
  { sampleEvent with volunteersNeeded := 1 }

/-- A concrete draft with every field valid except that no position was
passed in through the route parameters. -/
def positionlessDraft : DraftState :=
  { name := "Park cleanup"
    about := ""
    volNeeded := "4"
    date := some 100
    imageUrl := some "http://img.example/x.jpg"
    position := none }

/-- A concrete fully valid draft, position included. -/
def validDraft : DraftState :=
  { name := "Fair"
    about := "Village fair"
    volNeeded := "3"
    date := some 200
    imageUrl := some "http://img.example/y.jpg"
    position := some { latitude := 1, longitude := 2 } }

/-- The body produced by `onSave` on `validDraft`; its `volunteersNeeded` is
the double `3` (significand `3·2^51`, exponent `-51`). -/
def validDraftBody : CreateEventBody :=
  { name := "Fair"
    description := "Village fair"
    organizerId := "ImAdmin"
    dateTime := 200
    imageUrl := some "http://img.example/y.jpg"
    position := some { latitude := 1, longitude := 2 }
    volunteersNeeded := some (.finite false 6755399441055744 (-51))
    volunteersIds := [] }

/-! ### Helper lemmas -/

/-- Auxiliary: an appended element is always found by `List.contains`. -/
theorem contains_append_singleton (l : List String) (a : String) :
    (l ++ [a]).contains a = true := by
  induction l with
  | nil => simp [List.contains]
  | cons x xs ih =>
    cases hax : (a == x) with
    | true => simp [List.contains, List.elem, hax]
    | false =>
      simp only [List.cons_append, List.contains, List.elem, hax]
      exact ih

/-- Auxiliary: "4" passes the volunteersNeeded rule (`Number("4")` is the
double `4`, a positive integer). -/
theorem isVolunteersValid_four : isVolunteersValid "4" = true := by
  decide

/-- Auxiliary: "3" passes the volunteersNeeded rule. -/
theorem isVolunteersValid_three : isVolunteersValid "3" = true := by
  decide

/-! ### C1 — signup failure handling -/

/-- C1 (counterexample): the claim says a PATCH that resolves with a
non-success HTTP status leaves the in-memory event unchanged and signals
`SignupFailed`. The code never reads `response.ok` on the PATCH: with the
sample event, user "u2" and a resolved status-500 response, `handleVolunteer`
applies the optimistic mutation and shows the success alert. -/
theorem volunteer_http_error_counterexample :
    handleVolunteer (some sampleEvent) (some "u2") (.completed 500)
      = (some { sampleEvent with volunteersIds := ["u1", "u2"] }, .success) ∧
    ¬ ((handleVolunteer (some sampleEvent) (some "u2") (.completed 500)).1
          = some sampleEvent ∧
       (handleVolunteer (some sampleEvent) (some "u2") (.completed 500)).2
          = .signupFailed) := by
  decide

/-- C1 (amended): for every event `e` and non-empty user id `u` with `u` not
yet volunteered and `e` not full, if the PATCH *throws* then the in-memory
event is left unchanged and the caller is signalled `SignupFailed`; a PATCH
that resolves with a non-success HTTP status is not detected as a failure. -/
theorem volunteer_throw_leaves_event_unchanged (e : Event) (u : String)
    (hu : u ≠ "") (hnv : e.volunteersIds.contains u = false)
    (hnf : isFull (some e) = false) :
    handleVolunteer (some e) (some u) .thrown = (some e, .signupFailed) := by
  have hnv' : u ∉ e.volunteersIds := by simpa using hnv
  simp [handleVolunteer, isVolunteered, hu, hnv', hnf]

/-- C1 (witness): the amended theorem at the sample event and user "u2". -/
theorem volunteer_throw_witness :
    handleVolunteer (some sampleEvent) (some "u2") .thrown
      = (some sampleEvent, .signupFailed) :=
  volunteer_throw_leaves_event_unchanged sampleEvent "u2" (by decide) (by decide)
    (by decide)

/-! ### C5 — display-state priority -/

/-- C5: for every loaded event and stored user id, the status render yields
exactly one of the three display states, in priority order Volunteered →
Full → Open (with the live count); in particular a volunteered user never
sees Full or Open. -/
theorem display_state_priority (e : Event) (uid : Option String) :
    (isVolunteered (some e) uid = true → displayState e uid = .volunteered) ∧
    (isVolunteered (some e) uid = false → isFull (some e) = true →
      displayState e uid = .full) ∧
    (isVolunteered (some e) uid = false → isFull (some e) = false →
      displayState e uid
        = .openCount e.volunteersIds.length e.volunteersNeeded) ∧
    (isVolunteered (some e) uid = true → ∀ k n,
      displayState e uid ≠ .full ∧ displayState e uid ≠ .openCount k n) := by
  refine ⟨fun h => ?_, fun h hf => ?_, fun h hf => ?_, fun h k n => ?_⟩
  · simp [displayState, h]
  · simp [displayState, h, hf]
  · simp [displayState, h, hf]
  · simp [displayState, h]

/-- C5 (witness): with the sample event and its volunteered user "u1", the
display state is Volunteered and in particular not Full. -/
theorem display_state_priority_witness :
    displayState sampleEvent (some "u1") = .volunteered ∧
    displayState sampleEvent (some "u1") ≠ .full := by
  have h := display_state_priority sampleEvent (some "u1")
  exact ⟨h.1 (by decide), (h.2.2.2 (by decide) 0 0).1⟩

/-! ### C6 — no-op preconditions and idempotence -/

/-- C6: for every event `e`, non-empty user id `u` and PATCH outcome,
`handleVolunteer` is a silent no-op (not an error) when `u` is already among
the volunteers or the event is full; and running it twice in sequence — the
second call observing the first's resulting event — yields the same
`volunteersIds` as running it once. -/
theorem volunteer_noop_and_idempotent (e : Event) (u : String)
    (o : PatchOutcome) (hu : u ≠ "") :
    ((isVolunteered (some e) (some u) = true ∨ isFull (some e) = true) →
      handleVolunteer (some e) (some u) o = (some e, .noOp)) ∧
    ((handleVolunteer (handleVolunteer (some e) (some u) o).1 (some u) o).1.map
        Event.volunteersIds
      = (handleVolunteer (some e) (some u) o).1.map Event.volunteersIds) := by
  constructor
  · intro h
    have hc : (isVolunteered (some e) (some u) || isFull (some e)) = true := by
      rcases h with hv | hf
      · simp [hv]
      · simp [hf]
    simp [handleVolunteer, hu, hc]
  · by_cases hc : (isVolunteered (some e) (some u) || isFull (some e)) = true
    · simp [handleVolunteer, hu, hc]
    · have hc' : (isVolunteered (some e) (some u) || isFull (some e)) = false := by
        simpa using hc
      cases o with
      | thrown => simp [handleVolunteer, hu, hc']
      | completed s =>
        have hv2 : isVolunteered
            (some { e with volunteersIds := e.volunteersIds ++ [u] })
            (some u) = true := by
          simp [isVolunteered, hu, contains_append_singleton]
        simp [handleVolunteer, hu, hc', hv2]

/-- C6 (witness): the no-op at a concrete full event, and idempotence at the
sample event with user "u2" under a resolving PATCH. -/
theorem volunteer_noop_witness :
    handleVolunteer (some sampleFullEvent) (some "u9") .thrown
      = (some sampleFullEvent, .noOp) ∧
    (handleVolunteer
        (handleVolunteer (some sampleEvent) (some "u2") (.completed 200)).1
        (some "u2") (.completed 200)).1.map Event.volunteersIds
      = (handleVolunteer (some sampleEvent) (some "u2") (.completed 200)).1.map
          Event.volunteersIds :=
  ⟨(volunteer_noop_and_idempotent sampleFullEvent "u9" .thrown (by decide)).1
      (Or.inr (by decide)),
   (volunteer_noop_and_idempotent sampleEvent "u2" (.completed 200)
      (by decide)).2⟩

/-! ### C7 — successful signup appends -/

/-- C7: for every event `e`, non-empty user id `u` not yet among the
volunteers, with `e` not full, a volunteer call whose PATCH resolves yields
`volunteersIds = e.volunteersIds ++ [u]` — existing order preserved, the new
id appended at the end — and signals success. -/
theorem volunteer_success_appends (e : Event) (u : String) (s : Nat)
    (hu : u ≠ "") (hnv : e.volunteersIds.contains u = false)
    (hnf : isFull (some e) = false) :
    handleVolunteer (some e) (some u) (.completed s)
      = (some { e with volunteersIds := e.volunteersIds ++ [u] }, .success) := by
  have hnv' : u ∉ e.volunteersIds := by simpa using hnv
  simp [handleVolunteer, isVolunteered, hu, hnv', hnf]

/-- C7 (witness): Scenario D — `volunteersNeeded = 2`,
`volunteersIds = ["u1"]`, volunteering "u2" yields `["u1", "u2"]`. -/
theorem volunteer_success_appends_witness :
    handleVolunteer (some sampleEvent) (some "u2") (.completed 200)
      = (some { sampleEvent with volunteersIds := ["u1", "u2"] }, .success) :=
  volunteer_success_appends sampleEvent "u2" 200 (by decide) (by decide)
    (by decide)

/-! ### C3 — connected fetch: filter and cache overwrite -/

/-- C3: for every connected, successful invocation of `fetchEvents`, the
resulting event list is exactly the remote list filtered to events whose
`dateTime` is not earlier than the wall clock at call time, the cache key is
fully overwritten with exactly that filtered set, and no alert is shown. -/
theorem fetch_connected_success (getTime : String → Int) (now : Int)
    (data : List Event) (st : FetchState) :
    fetchEvents getTime now true (.ok data) st
      = ({ events := data.filter (fun e => decide (getTime e.dateTime ≥ now))
           cache := some (data.filter (fun e => decide (getTime e.dateTime ≥ now))) },
         .noAlert) := rfl

/-! ### C4 — disconnected / failing fetch: cache fallback -/

/-- C4: for every invocation of `fetchEvents` in which the probe reports
disconnected or the connected path fails (non-success HTTP status or parse
error), the cache key is never written; when a cached snapshot is present it
is returned exactly as last written with no alert; when absent, the loaded
events are untouched and a no-data alert (the `NoDataAvailable` surface) is
shown. -/
theorem fetch_failure_reads_cache_only (getTime : String → Int) (now : Int)
    (connected : Bool) (net : NetResult) (st : FetchState)
    (hfail : connected = false ∨ ∀ l, net ≠ NetResult.ok l) :
    (fetchEvents getTime now connected net st).1.cache = st.cache ∧
    (∀ l, st.cache = some l →
      fetchEvents getTime now connected net st
        = ({ st with events := l }, .noAlert)) ∧
    (st.cache = none →
      (fetchEvents getTime now connected net st).1 = st ∧
      (fetchEvents getTime now connected net st).2 ≠ .noAlert) := by
  have hres : fetchEvents getTime now connected net st
      = match st.cache with
        | some l => ({ st with events := l }, FetchAlert.noAlert)
        | none => (st, if connected then FetchAlert.errorNoCache
                       else FetchAlert.offlineNoCache) := by
    rcases hfail with hc | hnet
    · subst hc
      cases h : st.cache <;> simp [fetchEvents, h]
    · cases net with
      | ok l => exact absurd rfl (hnet l)
      | notOk => cases connected <;> cases h : st.cache <;> simp [fetchEvents, h]
      | badJson => cases connected <;> cases h : st.cache <;> simp [fetchEvents, h]
  refine ⟨?_, ?_, ?_⟩
  · rw [hres]
    cases h : st.cache <;> simp [h]
  · intro l hl
    rw [hres, hl]
  · intro hnone
    rw [hres, hnone]
    refine ⟨rfl, ?_⟩
    cases connected <;> simp

/-- C4 (witness): disconnected with a one-event cache returns exactly that
snapshot (Scenario B); a connected parse failure with an empty cache leaves
state untouched and raises the no-data alert. -/
theorem fetch_failure_witness :
    fetchEvents (fun _ => 0) 0 false .notOk
        { events := [], cache := some [sampleEvent] }
      = ({ events := [sampleEvent], cache := some [sampleEvent] }, .noAlert) ∧
    (fetchEvents (fun _ => 0) 0 true .badJson { events := [], cache := none }).1
      = { events := [], cache := none } ∧
    (fetchEvents (fun _ => 0) 0 true .badJson
        { events := [], cache := none }).2 ≠ .noAlert := by
  have h1 := fetch_failure_reads_cache_only (fun _ => 0) 0 false .notOk
    { events := [], cache := some [sampleEvent] } (Or.inl rfl)
  have h2 := fetch_failure_reads_cache_only (fun _ => 0) 0 true .badJson
    { events := [], cache := none }
    (Or.inr (fun l h => NetResult.noConfusion h))
  exact ⟨h1.2.1 [sampleEvent] rfl, (h2.2.2 rfl).1, (h2.2.2 rfl).2⟩

/-! ### C2 — composite draft validity -/

/-- C2 (counterexample): the claim says composite validity includes a present
position, so a draft with no position is invalid and cannot be submitted.
The source's `allValid` conjunction has no `position` conjunct: this
positionless draft validates and `onSave` issues the create request. -/
theorem allValid_ignores_position_counterexample :
    positionlessDraft.position = none ∧
    allValid positionlessDraft 50 = true ∧
    onSave positionlessDraft 50 ≠ none := by
  have hv : allValid positionlessDraft 50 = true := by
    simp only [allValid, positionlessDraft, isDescriptionValid, isDateValid,
      isVolunteersValid_four]
    decide
  have hd : positionlessDraft.date = some 100 := rfl
  refine ⟨rfl, hv, ?_⟩
  simp [onSave, hv, hd]

/-- C2 (amended): composite validity is the conjunction of the field rules
*excluding position*: non-empty name, description length ≤ 300, a
volunteersNeeded accepted by its rule, a present dateTime not in the past,
and a present non-empty imageUrl; the save handler issues the request exactly
when this conjunction holds. A draft with no position but all other fields
valid passes validation and can be submitted (position presence is only
enforced upstream, by the map screen's Next button). -/
theorem allValid_iff (s : DraftState) (now : Int) :
    (allValid s now = true ↔
      (s.name ≠ "" ∧ s.about.length ≤ 300 ∧
       isVolunteersValid s.volNeeded = true ∧
       (∃ t, s.date = some t ∧ now ≤ t) ∧
       (∃ u, s.imageUrl = some u ∧ u ≠ ""))) ∧
    (onSave s now).isSome = allValid s now := by
  have hiff : allValid s now = true ↔
      (s.name ≠ "" ∧ s.about.length ≤ 300 ∧
       isVolunteersValid s.volNeeded = true ∧
       (∃ t, s.date = some t ∧ now ≤ t) ∧
       (∃ u, s.imageUrl = some u ∧ u ≠ "")) := by
    unfold allValid isDescriptionValid isDateValid
    cases hd : s.date with
    | none => simp [hd]
    | some t =>
      cases hi : s.imageUrl with
      | none => simp [hd, hi]
      | some u => simp [hd, hi, ge_iff_le, and_assoc]
  refine ⟨hiff, ?_⟩
  by_cases hv : allValid s now = true
  · obtain ⟨-, -, -, ⟨t, hd, -⟩, -⟩ := hiff.mp hv
    simp [onSave, hv, hd]
  · have hv' : allValid s now = false := by simpa using hv
    simp [onSave, hv']

/-- C2 (witness of the amended claim): the positionless draft satisfies the
rule conjunction, hence validates, and its save request is issued. -/
theorem allValid_iff_witness :
    allValid positionlessDraft 50 = true ∧
    (onSave positionlessDraft 50).isSome = allValid positionlessDraft 50 := by
  have h := allValid_iff positionlessDraft 50
  exact ⟨h.1.mpr ⟨by decide, by decide, isVolunteersValid_four,
    ⟨100, rfl, by decide⟩, ⟨"http://img.example/x.jpg", rfl, by decide⟩⟩, h.2⟩

/-! ### C9 — the volunteersNeeded rule -/

/-- Auxiliary: a finite double passes `num > 0 && Number.isInteger(num)` iff
it is non-negative and its exact value is a positive natural number. -/
theorem finite_posInt_iff (neg : Bool) (sig : ℕ) (e : ℤ) :
    ((F64.finite neg sig e).isPos && (F64.finite neg sig e).isInt) = true
      ↔ (neg = false ∧
          ∃ n : ℕ, 0 < n ∧ (F64.finite neg sig e).val = (n : ℚ)) := by
  cases neg with
  | true => simp [F64.isPos]
  | false =>
    simp only [F64.isPos, F64.isInt, F64.val, Bool.not_false, Bool.true_and,
      Bool.and_eq_true, decide_eq_true_eq, Bool.false_eq_true, if_false,
      one_mul, eq_self_iff_true, true_and]
    by_cases he : 0 ≤ e
    · obtain ⟨t, rfl⟩ : ∃ t : ℕ, e = (t : ℤ) :=
        ⟨e.toNat, (Int.toNat_of_nonneg he).symm⟩
      rw [zpow_natCast, if_pos he]
      simp only [eq_self_iff_true, and_true]
      constructor
      · intro hs
        refine ⟨sig * 2 ^ t, by positivity, ?_⟩
        push_cast
        ring
      · rintro ⟨n, hn, hv⟩
        rcases Nat.eq_zero_or_pos sig with rfl | hs
        · exfalso
          rw [Nat.cast_zero, zero_mul] at hv
          have : n = 0 := by exact_mod_cast hv.symm
          omega
        · exact hs
    · have hzp : (2 : ℚ) ^ e = ((2 : ℚ) ^ (-e).toNat)⁻¹ := by
        conv_lhs => rw [show e = -(((-e).toNat : ℕ) : ℤ) by
          have := Int.toNat_of_nonneg (by omega : (0 : ℤ) ≤ -e)
          omega]
        rw [zpow_neg, zpow_natCast]
      rw [if_neg he, decide_eq_true_eq, hzp]
      constructor
      · rintro ⟨hs, hmod⟩
        obtain ⟨c, hc⟩ := Nat.dvd_of_mod_eq_zero hmod
        have hcpos : 0 < c := by
          rcases Nat.eq_zero_or_pos c with rfl | h
          · rw [hc] at hs
            simp at hs
          · exact h
        refine ⟨c, hcpos, ?_⟩
        rw [hc]
        have h2 : ((2 : ℚ) ^ (-e).toNat) ≠ 0 := by positivity
        push_cast
        field_simp
      · rintro ⟨n, hn, hv⟩
        have h2 : ((2 : ℚ) ^ (-e).toNat) ≠ 0 := by positivity
        rw [← div_eq_mul_inv, div_eq_iff h2] at hv
        have hsig : sig = n * 2 ^ (-e).toNat := by exact_mod_cast hv
        refine ⟨?_, ?_⟩
        · rw [hsig]
          positivity
        · rw [hsig]
          exact Nat.mul_mod_left n (2 ^ (-e).toNat)

/-- C9 (counterexample): the claim says non-integral inputs are rejected.
`Number` rounds a decimal literal to the nearest binary64:
"4.0000000000000001" has exact value `40000000000000001 / 10^16` — not an
integer, since `10^16` does not divide the mantissa — yet its nearest double
is exactly the double of "4", so the source's check accepts it. -/
theorem volunteersNeeded_rounding_counterexample :
    isVolunteersValid "4.0000000000000001" = true ∧
    parseDecMant "4.0000000000000001".toList
      = some (40000000000000001, -16) ∧
    40000000000000001 % 10 ^ 16 ≠ 0 ∧
    jsNumber "4.0000000000000001" = jsNumber "4" := by
  decide

/-- C9 (amended): a string is accepted by the rule iff `Number` maps it to a
finite double whose exact value is a positive integer. `Number` rounds the
literal to the nearest binary64, so a non-integral literal whose nearest
double is an integer is also accepted — "4.0000000000000001" rounds to
exactly 4 — while a literal beyond the finite double range becomes
`Infinity` and is rejected; "0", "-3" and "2.5" remain rejected and "4"
accepted. -/
theorem volunteersNeeded_rule (s : String) :
    (isVolunteersValid s = true ↔
      ∃ (sig : ℕ) (e : ℤ), jsNumber s = some (.finite false sig e) ∧
        ∃ n : ℕ, 0 < n ∧ (F64.finite false sig e).val = (n : ℚ)) ∧
    isVolunteersValid "0" = false ∧ isVolunteersValid "-3" = false ∧
    isVolunteersValid "2.5" = false ∧ isVolunteersValid "4" = true ∧
    isVolunteersValid "4.0000000000000001" = true := by
  refine ⟨?_, by decide, by decide, by decide, isVolunteersValid_four,
    by decide⟩
  unfold isVolunteersValid
  cases hj : jsNumber s with
  | none => simp
  | some v =>
    cases v with
    | inf neg => simp [F64.isPos, F64.isInt]
    | finite neg sig e =>
      have hm : (match some (F64.finite neg sig e) with
          | none => false
          | some v => v.isPos && v.isInt)
          = ((F64.finite neg sig e).isPos && (F64.finite neg sig e).isInt) :=
        rfl
      rw [hm, finite_posInt_iff]
      constructor
      · rintro ⟨rfl, n, hn, hv⟩
        exact ⟨sig, e, rfl, n, hn, hv⟩
      · rintro ⟨sig', e', heq, n, hn, hv⟩
        simp only [Option.some.injEq, F64.finite.injEq] at heq
        obtain ⟨rfl, rfl, rfl⟩ := heq
        exact ⟨rfl, n, hn, hv⟩

/-- C9 (witness): the amended rule theorem instantiated at "4". -/
theorem volunteersNeeded_rule_witness : isVolunteersValid "4" = true :=
  (volunteersNeeded_rule "4").2.2.2.2.1

/-! ### C10 — create request constants -/

/-- C10: whenever `onSave` issues a create request, the body carries
`volunteersIds = []` and `organizerId = "ImAdmin"` — the organizer field
never depends on the logged-in user (no user identity is even an input of
the save path). -/
theorem onSave_fixed_organizer (s : DraftState) (now : Int)
    (b : CreateEventBody) (h : onSave s now = some b) :
    b.organizerId = "ImAdmin" ∧ b.volunteersIds = [] := by
  unfold onSave at h
  split at h
  · cases hd : s.date with
    | none => rw [hd] at h; cases h
    | some t =>
      rw [hd] at h
      simp only [Option.some.injEq] at h
      subst h
      exact ⟨rfl, rfl⟩
  · cases h

/-- C10 (witness): the theorem at the concrete valid draft, whose saved body
is `validDraftBody`. -/
theorem onSave_fixed_organizer_witness :
    validDraftBody.organizerId = "ImAdmin" ∧
    validDraftBody.volunteersIds = [] :=
  onSave_fixed_organizer validDraft 100 validDraftBody (by decide)

/-! ### C8 — image content encoding -/

/-- C8 (counterexample): the claim's stripping rule removes everything up to
and including the FIRST comma; the code's `split(",").pop()` keeps only what
follows the LAST comma. With attached content "x,y,z" the code uploads "z",
not the claim's "y,z". -/
theorem encode_strip_counterexample :
    encodeAssetContent (some "x,y,z") "w" = "z" ∧
    stripThroughFirstComma "x,y,z" = "y,z" ∧
    encodeAssetContent (some "x,y,z") "w" ≠ stripThroughFirstComma "x,y,z" := by
  decide

/-- C8 (amended): the content-encoding stage uses the attached base64 content
when present and non-empty; when that content contains a comma it keeps only
the segment after the LAST comma (for a well-formed data URI, whose payload
contains no comma, this coincides with stripping through the first comma),
falling back to the storage read if that segment is empty; when no attached
content exists (or it is empty) it falls back to the bytes read from storage,
which become the upload payload. -/
theorem encode_content_cases (attached : Option String) (fileRead : String) :
    (attached = none → encodeAssetContent attached fileRead = fileRead) ∧
    (encodeAssetContent (some "") fileRead = fileRead) ∧
    (∀ s, attached = some s → s ≠ "" → s.toList.contains ',' = false →
      encodeAssetContent attached fileRead = s) ∧
    (∀ s, attached = some s → s ≠ "" → s.toList.contains ',' = true →
      encodeAssetContent attached fileRead
        = (if splitPop s = "" then fileRead else splitPop s)) := by
  refine ⟨fun h => ?_, ?_, fun s hs hne hnc => ?_, fun s hs hne hc => ?_⟩
  · subst h
    rfl
  · rfl
  · subst hs
    have hnc' : ',' ∉ s.data := by simpa using hnc
    simp [encodeAssetContent, hne, hnc']
  · subst hs
    have hc' : ',' ∈ s.data := by simpa using hc
    simp [encodeAssetContent, hne, hc']

/-- C8 (witness): Scenario E — no attached content falls back to the storage
read; and a data-URI-prefixed attached content keeps the payload after the
comma. -/
theorem encode_content_cases_witness :
    encodeAssetContent none "payload" = "payload" ∧
    encodeAssetContent (some "data:image/png;base64,AAAA") "payload"
      = (if splitPop "data:image/png;base64,AAAA" = "" then "payload"
         else splitPop "data:image/png;base64,AAAA") := by
  have h1 := encode_content_cases none "payload"
  have h2 := encode_content_cases (some "data:image/png;base64,AAAA") "payload"
  exact ⟨h1.1 rfl,
    h2.2.2.2 "data:image/png;base64,AAAA" rfl (by decide) (by decide)⟩

end VolunteerApp
